import Mathlib

/-!
Shallow embedding of the reconciliation / persistence core of the `amt`
media-tracker (files `amt/state.py` and `amt/media_reader.py`).

Python dictionaries are embedded as association lists (`String` keys),
with insertion respecting Python semantics: replacing an existing key
keeps its position, a new key is appended at the end.  Chapter numbers,
progress values and numbering offsets are embedded as rationals (`ℚ`),
Python floats being used only as exact decimal/fractional numbers here.
Provider collaborators (`Server.update_media_data`) are IO boundaries and
enter as explicit parameters: a fetch either fails or yields the fresh
chapter listing the provider would write into the item.
-/

namespace Amt

/-- Python dict lookup on an association list (first matching key wins;
a well-formed dict has distinct keys). -/
def alistLookup {α : Type} (k : String) : List (String × α) → Option α
  | [] => none
  | p :: rest => if p.1 = k then some p.2 else alistLookup k rest

/-- Python dict assignment `d[k] = v`: replace the existing entry in place,
or append a new entry at the end. -/
def alistInsert {α : Type} : List (String × α) → String → α → List (String × α)
  | [], k, v => [(k, v)]
  | p :: rest, k, v => if p.1 = k then (k, v) :: rest else p :: alistInsert rest k v

/-- Python dict deletion `del d[k]`. -/
def alistErase {α : Type} : List (String × α) → String → List (String × α)
  | [], _ => []
  | p :: rest, k => if p.1 = k then alistErase rest k else p :: alistErase rest k

/-- Errors raised by the embedded code paths. -/
inductive PyErr where
  /-- a provider fetch (`Server.update_media_data`) failed -/
  | fetchError
  /-- `ValueError`, raised by `MediaReader.add_media` on a duplicate id -/
  | valueError
  /-- `TypeError`, raised by `in`-testing a `None` value -/
  | typeError
  /-- `AssertionError`, from the `assert` in `MediaReader.update_media` -/
  | assertionError
  deriving Repr, DecidableEq

/-- `ChapterData` (state.py): one chapter/episode record.  The dict keys a
chapter record carries in the source (`id`, `number`, `title`, `read`,
`premium`, `special`) become named fields. -/
structure ChapterData where
  id : String
  number : ℚ
  title : String
  read : Bool
  premium : Bool
  special : Bool
  deriving Repr, DecidableEq

/-- The `media_data["chapters"]` dict: chapter id → chapter record. -/
abbrev Chapters := List (String × ChapterData)

/-- `MediaData` (state.py): one catalog item.  Provider-authored identity and
display fields plus the user-owned fields `offset`, `progress`,
`progressVolumes` and `trackers` (tracker id → (tracking id, title)). -/
structure MediaData where
  server_id : String
  id : String
  season_id : Option String
  lang : String
  name : String
  media_type : Nat
  chapters : Chapters
  offset : ℚ
  progress : ℚ
  progressVolumes : Bool
  trackers : List (String × String × String)
  deriving Repr, DecidableEq

/-- Python `max(..., default=0)` over the `number` values of a chapter list:
the maximum of a non-empty list, `0` for the empty one. -/
def maxOrZero : List ℚ → ℚ
  | [] => 0
  | x :: xs => xs.foldl max x

namespace MediaData

/-- `MediaData.global_id` (state.py:169-171):
`"{}:{}{}{}".format(server_id, id, season_id if season_id else "", lang[:3])`. -/
def global_id (m : MediaData) : String :=
  m.server_id ++ ":" ++ m.id ++ m.season_id.getD "" ++ m.lang.take 3

/-- `MediaData.get_last_chapter_number` (state.py:178-179):
`max(chapters.values(), key=number)["number"] if chapters else 0`. -/
def get_last_chapter_number (m : MediaData) : ℚ :=
  maxOrZero (m.chapters.map (fun p => p.2.number))

/-- `MediaData.get_last_read` (state.py:181-182):
`max(filter(read, chapters.values()), key=number, default={number:0})["number"]`. -/
def get_last_read (m : MediaData) : ℚ :=
  maxOrZero ((m.chapters.filter (fun p => p.2.read)).map (fun p => p.2.number))

end MediaData

/-- The catalog `self.media`: global id → item. -/
abbrev MediaMap := List (String × MediaData)

/-! ### Reconciliation engine: `MediaReader.update_media` (media_reader.py:253-288) -/

/-- Modelled from the spec: the provider collaborator step
(`Server.update_chapter_data`, called by every `update_media_data`
implementation; the `Server` base class is not among the sources).  Per §6 of
the spec, `populate_subitems` mutates the item's sub-item mapping; per the
data-model invariant, the `read` field of an already-present sub-item is never
touched by this additive step, while a newly created sub-item gets the
provider-supplied value (`false` in every provider listing). -/
def update_chapter_data (cs : Chapters) (c : ChapterData) : Chapters :=
  match alistLookup c.id cs with
  | some old => alistInsert cs c.id { c with read := old.read }
  | none => alistInsert cs c.id c

/-- `get_chapter_ids` (media_reader.py:261-262): the id set of a chapter dict,
restricted to non-premium chapters when `settings.free_only` is set. -/
def get_chapter_ids (free_only : Bool) (cs : Chapters) : List String :=
  if free_only then (cs.filter (fun p => !p.2.premium)).map Prod.fst
  else cs.map Prod.fst

/-- The chapter dict `update_media` passes into the fetch: cleared in
replace mode (media_reader.py:264-266), the existing dict otherwise. -/
def work_chapters (rep : Bool) (media : MediaData) : Chapters :=
  if rep then [] else media.chapters

/-- The chapter dict right after `server.update_media_data` returned, the
provider having applied the listing `L` entry by entry. -/
def fetched_chapters (rep : Bool) (media : MediaData) (L : List ChapterData) : Chapters :=
  L.foldl update_chapter_data (work_chapters rep media)

/-- `new_chapter_ids = current_chapter_ids - chapter_ids`
(media_reader.py:275-276). -/
def new_chapter_ids (free_only rep : Bool) (media : MediaData) (L : List ChapterData) :
    List String :=
  (get_chapter_ids free_only (fetched_chapters rep media L)).filter
    (fun i => !((get_chapter_ids free_only media.chapters).any (fun j => decide (j = i))))

/-- One write of the loop at media_reader.py:279-281:
`media_data["chapters"][k]["read"] = b`. -/
def setReadFlag (cs : Chapters) (k : String) (b : Bool) : Chapters :=
  cs.map (fun q => if q.1 = k then (q.1, { q.2 with read := b }) else q)

/-- One iteration of the replace-mode read-copy loop
(media_reader.py:278-281). -/
def copyReadStep (cs : Chapters) (p : String × ChapterData) : Chapters :=
  if (alistLookup p.1 cs).isSome then setReadFlag cs p.1 p.2.read else cs

/-- The replace-mode read-copy loop (media_reader.py:278-281): for every id of
the pre-clear snapshot still present after the fetch, copy its `read` flag
onto the freshly fetched record. -/
def copyReadFlags (fetched snapshot : Chapters) : Chapters :=
  snapshot.foldl copyReadStep fetched

/-- Stable insertion of a chapter into a number-sorted list (Python `sorted`
with `key=lambda x: x["number"]` is a stable ascending sort). -/
def insertSorted (c : ChapterData) : List ChapterData → List ChapterData
  | [] => [c]
  | d :: rest => if c.number ≤ d.number then c :: d :: rest else d :: insertSorted c rest

/-- `sorted(..., key=lambda x: x["number"])` (media_reader.py:283). -/
def sortByNumber : List ChapterData → List ChapterData
  | [] => []
  | c :: rest => insertSorted c (sortByNumber rest)

/-- The chapter dict at the end of `update_media` (media_reader.py:275-281),
after the replace-mode read-copy loop ran over the fetched chapters. -/
def final_chapters (rep : Bool) (media : MediaData) (L : List ChapterData) : Chapters :=
  if rep then copyReadFlags (fetched_chapters rep media L) media.chapters
  else fetched_chapters rep media L

/-- `new_chapters` (media_reader.py:283): the chapter records of the newly
discovered ids, sorted ascending by `number`. -/
def new_chapters_result (free_only rep : Bool) (media : MediaData) (L : List ChapterData) :
    List ChapterData :=
  sortByNumber ((new_chapter_ids free_only rep media L).filterMap
    (fun i => alistLookup i (final_chapters rep media L)))

/-- `MediaReader.update_media` (media_reader.py:253-288), state-passing form.
`sync_removed` is the per-server capability flag that forces replace mode;
`fetch` is the provider call, either an error or the fresh listing.  The
returned pair is the item after the call plus either the sorted list of newly
discovered chapters or the propagated error (`assert len(new_chapter_ids) ==
len(new_chapters)` becomes the `assertionError` branch).  The download step
at media_reader.py:285-287 performs file IO only and never touches the item,
so it is omitted.  The fetch is atomic (the spec's §9 design note: providers
either fully populate or leave the mapping untouched before raising).

On a fetch error the replace-mode restore attempt at media_reader.py:272,
`media_data["chapters"] = chapters`, is ineffective: `MediaData` overrides
`__getitem__` to serve `"chapters"` from the attribute `self.chapters`
(state.py:160-164) but does not override `__setitem__`, so the assignment
lands in raw dict storage that every reader shadows.  The visible chapter
mapping therefore remains the dict cleared at media_reader.py:266; the
shadowed raw slot has no reader among the embedded operations and is not
part of the state. -/
def update_media (free_only sync_removed : Bool) (fetch : Except PyErr (List ChapterData))
    (media : MediaData) (replace : Bool) : MediaData × Except PyErr (List ChapterData) :=
  let rep := sync_removed || replace
  match fetch with
  | .error e => ({ media with chapters := work_chapters rep media }, .error e)
  | .ok L =>
    ({ media with chapters := final_chapters rep media L },
      if (new_chapter_ids free_only rep media L).length =
          (new_chapters_result free_only rep media L).length
      then .ok (new_chapters_result free_only rep media L)
      else .error .assertionError)

/-- `MediaReader.mark_chapters_until_n_as_read` (media_reader.py:335-341). -/
def mark_chapters_until_n_as_read (m : MediaData) (N : ℚ) (force : Bool) : MediaData :=
  { m with chapters := m.chapters.map (fun p =>
      if p.2.number ≤ N then (p.1, { p.2 with read := true })
      else if force then (p.1, { p.2 with read := false }) else p) }

/-! ### Adding and migrating: `add_media`, `search_add`, `migrate`
(media_reader.py:138-146, 158-168, 223-239) -/

/-- The external collaborators a migration run consults: the user/provider
search selection (`search_add`'s winning candidate, `None` when the search
yields nothing), the per-item provider listing keyed by global id, the
`settings.free_only` flag and each server's `sync_removed` capability. -/
structure MigrateEnv where
  search : MediaData → Option MediaData
  fetch : String → Except PyErr (List ChapterData)
  free_only : Bool
  sync_removed : String → Bool

/-- `MediaReader.add_media` (media_reader.py:138-146): raise `ValueError` when
the global id is already a catalog key, otherwise insert under the global id
and (unless `no_update`) run `update_media` on the freshly inserted item.  An
error is returned together with the catalog state at raise time; the
`os.makedirs` call is file IO only. -/
def add_media (env : MigrateEnv) (cat : MediaMap) (m : MediaData) (no_update : Bool) :
    Except (MediaMap × PyErr) (MediaMap × List ChapterData) :=
  if (alistLookup m.global_id cat).isSome then .error (cat, .valueError)
  else
    let cat1 := alistInsert cat m.global_id m
    if no_update then .ok (cat1, [])
    else
      let r := update_media env.free_only (env.sync_removed m.server_id)
        (env.fetch m.global_id) m false
      match r.2 with
      | .error e => .error (alistInsert cat1 m.global_id r.1, e)
      | .ok cs => .ok (alistInsert cat1 m.global_id r.1, cs)

/-- `MediaReader.search_add` as used by `migrate` (media_reader.py:158-168):
the search/selection step is the external `env.search`; a `none` selection
returns `None` without touching the catalog, otherwise the candidate is added
through `add_media` and the (updated) stored object is returned. -/
def search_add (env : MigrateEnv) (cat : MediaMap) (old : MediaData) :
    Except (MediaMap × PyErr) (MediaMap × Option MediaData) :=
  match env.search old with
  | none => .ok (cat, none)
  | some nm =>
    match add_media env cat nm false with
    | .error e => .error e
    | .ok (cat2, _) => .ok (cat2, alistLookup nm.global_id cat2)

/-- `MediaData.copy_fields_to` (state.py:173-176): write `offset`, `progress`,
`progressVolumes` and `trackers` from the source onto the destination.  When
the destination is `None` (the no-candidate path of `migrate`), the very first
`assert key in dest` raises `TypeError` — `in` is not applicable to `None`. -/
def copy_fields_to (src : MediaData) (dest : Option MediaData) : Except PyErr MediaData :=
  match dest with
  | none => .error .typeError
  | some d => .ok { d with
      offset := src.offset, progress := src.progress,
      progressVolumes := src.progressVolumes, trackers := src.trackers }

/-- First loop of `MediaReader.migrate` (media_reader.py:226-235): remove the
old item, search-add its replacement, `copy_fields_to` the user-owned fields
onto it, and accumulate the new items and the old read positions.  The error
value carries the catalog at raise time. -/
def migrate_loop (env : MigrateEnv) :
    MediaMap → List MediaData → Except (MediaMap × PyErr) (MediaMap × List MediaData × List ℚ)
  | cat, [] => .ok (cat, [], [])
  | cat, old :: rest =>
    let cat1 := alistErase cat old.global_id
    match search_add env cat1 old with
    | .error e => .error e
    | .ok (cat2, onm) =>
      match copy_fields_to old onm with
      | .error e => .error (cat2, e)
      | .ok nm2 =>
        let cat3 := alistInsert cat2 nm2.global_id nm2
        match migrate_loop env cat3 rest with
        | .error e => .error e
        | .ok (catF, ms, lrs) => .ok (catF, nm2 :: ms, old.get_last_read :: lrs)

/-- One unit of the `self.for_each(self.update_media, media_list)` fan-out
(media_reader.py:237): update the catalog entry in place; `for_each` runs with
`raiseException=False`, so a failed update is swallowed. -/
def apply_update (env : MigrateEnv) (cat : MediaMap) (gid : String) : MediaMap :=
  match alistLookup gid cat with
  | none => cat
  | some m =>
    let r := update_media env.free_only (env.sync_removed m.server_id) (env.fetch gid) m false
    alistInsert cat gid r.1

/-- One iteration of the final loop of `migrate` (media_reader.py:238-239),
marking the catalog entry at `gid` read up to `N`. -/
def apply_mark (cat : MediaMap) (gid : String) (N : ℚ) : MediaMap :=
  match alistLookup gid cat with
  | none => cat
  | some m => alistInsert cat gid (mark_chapters_until_n_as_read m N false)

/-- `MediaReader.migrate` (media_reader.py:223-239) over a snapshot of the
selected items.  After the per-item loop, every new item is reconciled again,
and then the final loop runs `mark_chapters_until_n_as_read(new_media_data,
last_read)` for each entry of `last_read_list` — `new_media_data` being the
variable left over from the first loop, i.e. the LAST item's replacement. -/
def migrate (env : MigrateEnv) (cat : MediaMap) (selected : List MediaData) :
    Except (MediaMap × PyErr) (MediaMap × List MediaData × List ℚ) :=
  match migrate_loop env cat selected with
  | .error e => .error e
  | .ok (cat1, ms, lrs) =>
    let cat2 := ms.foldl (fun c nm => apply_update env c nm.global_id) cat1
    let catF :=
      match ms.getLast? with
      | none => cat2
      | some lastNm => lrs.foldl (fun c lr => apply_mark c lastNm.global_id lr) cat2
    .ok (catF, ms, lrs)

/-! ### Tracker push: `MediaReader.sync_progress` (media_reader.py:462-476) -/

/-- Python `int()` on a rational: truncation toward zero. -/
def pyInt (q : ℚ) : ℤ := if 0 ≤ q then ⌊q⌋ else ⌈q⌉

/-- One iteration of the `sync_progress` loop (media_reader.py:465-472), for
the default `media_type=None` call: when the item has a primary-tracker link
and `force or progress < int(get_last_read())`, stage the tuple
`(tracking_id, get_last_read(), progressVolumes)` and set the local
`progress` to `get_last_read()`. -/
def sync_step (force : Bool) (primary : String) (m : MediaData) :
    MediaData × Option (String × ℚ × Bool) :=
  match alistLookup primary m.trackers with
  | none => (m, none)
  | some ti =>
    if force || decide (m.progress < ((pyInt m.get_last_read : ℤ) : ℚ)) then
      ({ m with progress := m.get_last_read }, some (ti.1, m.get_last_read, m.progressVolumes))
    else (m, none)

/-- `MediaReader.sync_progress` (media_reader.py:462-476): the items after the
loop, plus the staged update list handed to `tracker.update` afterwards (the
local mutations happen before — and independently of — the remote call). -/
def sync_progress (force : Bool) (primary : String) (ms : List MediaData) :
    List MediaData × List (String × ℚ × Bool) :=
  (ms.map (fun m => (sync_step force primary m).1),
   ms.filterMap (fun m => (sync_step force primary m).2))

/-! ### Persistence store: `State` (state.py:27-62) -/

/-- The hash table `State.hashes`: destination file name → hash of the last
written/loaded canonical serialization. -/
structure PState where
  hashes : List (String × Int)
  deriving Repr, DecidableEq

/-- `State.save_to_file` (state.py:43-55): recompute the payload's canonical
serialization (`ser`) and its hash (`hashF`, Python's `hash` over the
canonical `json.dumps` string); skip the write (`False`) when it matches the
recorded hash (`self.hashes.get(file_name, 0)`); otherwise record the hash
and write (`True`). -/
def save_to_file {α : Type} (hashF : String → Int) (ser : α → String)
    (st : PState) (file : String) (payload : α) : PState × Bool :=
  if (alistLookup file st.hashes).getD 0 = hashF (ser payload) then (st, false)
  else ({ hashes := alistInsert st.hashes file (hashF (ser payload)) }, true)

/-- `State.read_file_as_dict` (state.py:32-41): on a present file, deserialize
and seed `self.hashes[file_name]` with the hash of the parsed payload; a
missing file yields an empty structure with no hash seeded. -/
def read_file_as_dict {α : Type} (hashF : String → Int) (ser : α → String)
    (st : PState) (file : String) (content : Option α) : PState × Option α :=
  match content with
  | some d => ({ hashes := alistInsert st.hashes file (hashF (ser d)) }, some d)
  | none => (st, none)

/-- `State.save` (state.py:57-62) over its destinations (bundle file, catalog
index, one chapter file per item): one `save_to_file` per (file, payload)
pair, counting the writes performed. -/
def save_all {α : Type} (hashF : String → Int) (ser : α → String) :
    PState → List (String × α) → PState × Nat
  | st, [] => (st, 0)
  | st, fp :: rest =>
    let r := save_to_file hashF ser st fp.1 fp.2
    let tail := save_all hashF ser r.1 rest
    (tail.1, (if r.2 then 1 else 0) + tail.2)

/-- `State.load` (state.py:64-84) over the same destinations, every file
present on disk with the given payload: one `read_file_as_dict` each. -/
def load_all {α : Type} (hashF : String → Int) (ser : α → String) :
    PState → List (String × α) → PState
  | st, [] => st
  | st, fp :: rest => load_all hashF ser (read_file_as_dict hashF ser st fp.1 (some fp.2)).1 rest

/-- Spec-side characterization of the staging condition of `sync_progress`
(the amended claim wording): the item has a primary-tracker link and either
`force` holds or the stored `progress` is strictly below the integer
truncation of the last-read number. -/
def staged_condition (force : Bool) (primary : String) (m : MediaData) : Bool :=
  (alistLookup primary m.trackers).isSome &&
    (force || decide (m.progress < ((pyInt m.get_last_read : ℤ) : ℚ)))

/-- The Python dict invariant of `media_data["chapters"]`: the record stored
under key `k` carries `id = k` (providers key chapters by their own id). -/
def IdMatch (cs : Chapters) : Prop := ∀ p ∈ cs, p.2.id = p.1

/-- The hash-table invariant behind persistence idempotence: every listed
destination's recorded hash equals the hash of its payload's canonical
serialization (`self.hashes.get(file_name, 0)` comparison). -/
def Seeded {α : Type} (hashF : String → Int) (ser : α → String) (st : PState)
    (files : List (String × α)) : Prop :=
  ∀ fp ∈ files, (alistLookup fp.1 st.hashes).getD 0 = hashF (ser fp.2)

/-! ### Concrete fixtures used by witnesses, counterexamples and evaluations -/

/-- A read chapter numbered 1. -/
def cW1 : ChapterData := ⟨"c1", 1, "", true, false, false⟩

/-- A read chapter numbered 2. -/
def cW2 : ChapterData := ⟨"c2", 2, "", true, false, false⟩

/-- A two-chapter item, both chapters read. -/
def mW1 : MediaData := ⟨"s", "x", none, "", "X", 1, [("c1", cW1), ("c2", cW2)], 0, 0, false, []⟩

/-- A fresh provider listing: chapter `c1` re-listed (unread, new title) plus
a new chapter `c3`; `c2` is gone. -/
def LW1 : List ChapterData := [⟨"c1", 1, "t1", false, false, false⟩,
  ⟨"c3", 3, "t3", false, false, false⟩]

/-- An item whose only read chapter has the fractional number 11/2, with
stored progress 5 and a primary-tracker link. -/
def mC8 : MediaData := ⟨"s", "x", none, "", "X", 1,
  [("c", ⟨"c", mkRat 11 2, "", true, false, false⟩)], 0, 5, false, [("t", "tid", "T")]⟩

/-- Old item A for the migrate run: read up to number 5. -/
def oldA : MediaData := ⟨"s1", "a", none, "", "A", 1,
  [("a5", ⟨"a5", 5, "", true, false, false⟩)], 0, 0, false, []⟩

/-- Old item B for the migrate run: read up to number 3. -/
def oldB : MediaData := ⟨"s1", "b", none, "", "B", 1,
  [("b3", ⟨"b3", 3, "", true, false, false⟩)], 0, 0, false, []⟩

/-- Replacement listing candidate for A on provider s2. -/
def newA0 : MediaData := ⟨"s2", "a2", none, "", "A", 1, [], 0, 0, false, []⟩

/-- Replacement listing candidate for B on provider s2. -/
def newB0 : MediaData := ⟨"s2", "b2", none, "", "B", 1, [], 0, 0, false, []⟩

/-- Provider listing of the new A: chapters numbered 1 and 6. -/
def listingA : List ChapterData := [⟨"n1", 1, "", false, false, false⟩,
  ⟨"n6", 6, "", false, false, false⟩]

/-- Provider listing of the new B: chapters numbered 1 and 5. -/
def listingB : List ChapterData := [⟨"n1", 1, "", false, false, false⟩,
  ⟨"n5", 5, "", false, false, false⟩]

/-- Migration environment for the two-item run: each old item finds its
replacement, and each replacement's provider listing is fixed. -/
def envC3 : MigrateEnv :=
  ⟨fun m => if m.id = "a" then some newA0 else if m.id = "b" then some newB0 else none,
   fun gid => if gid = "s2:a2" then .ok listingA
     else if gid = "s2:b2" then .ok listingB else .error .fetchError,
   false, fun _ => false⟩

/-- The catalog holding the two old items. -/
def catC3 : MediaMap := [("s1:a", oldA), ("s1:b", oldB)]

/-- Migration environment whose search finds no candidate for anything. -/
def envC7 : MigrateEnv := ⟨fun _ => none, fun _ => .error .fetchError, false, fun _ => false⟩

/-! ### Association-list lemmas -/

theorem alistLookup_insert_self {α : Type} (m : List (String × α)) (k : String) (v : α) :
    alistLookup k (alistInsert m k v) = some v := by
  induction m with
  | nil => simp [alistInsert, alistLookup]
  | cons p rest ih =>
    by_cases h : p.1 = k
    · simp [alistInsert, h, alistLookup]
    · simp [alistInsert, h, alistLookup, ih]

theorem alistLookup_insert_ne {α : Type} (m : List (String × α)) (k j : String) (v : α)
    (h : j ≠ k) : alistLookup j (alistInsert m k v) = alistLookup j m := by
  have h2 : ¬ k = j := fun hh => h hh.symm
  induction m with
  | nil => simp [alistInsert, alistLookup, h2]
  | cons p rest ih =>
    by_cases hp : p.1 = k
    · subst hp
      simp [alistInsert, alistLookup, h2]
    · simp only [alistInsert, if_neg hp, alistLookup]
      by_cases hj : p.1 = j <;> simp [hj, ih]

theorem alistLookup_isSome_of_mem {α : Type} {cs : List (String × α)} {k : String}
    (h : ∃ p ∈ cs, p.1 = k) : (alistLookup k cs).isSome := by
  induction cs with
  | nil => simp at h
  | cons p rest ih =>
    by_cases hp : p.1 = k
    · simp [alistLookup, hp]
    · simp only [alistLookup, if_neg hp]
      rcases h with ⟨q, hq, hqk⟩
      rcases List.mem_cons.mp hq with rfl | hmem
      · exact absurd hqk hp
      · exact ih ⟨q, hmem, hqk⟩

theorem alistLookup_mem {α : Type} {cs : List (String × α)} {k : String} {v : α}
    (h : alistLookup k cs = some v) : (k, v) ∈ cs := by
  induction cs with
  | nil => simp [alistLookup] at h
  | cons p rest ih =>
    by_cases hp : p.1 = k
    · simp only [alistLookup, if_pos hp] at h
      cases h
      obtain ⟨a, b⟩ := p
      cases hp
      exact List.mem_cons_self _ _
    · simp only [alistLookup, if_neg hp] at h
      exact List.mem_cons_of_mem _ (ih h)

/-! ### Lemmas on the replace-mode read-copy loop -/

theorem alistLookup_setReadFlag (cs : Chapters) (k j : String) (b : Bool) :
    alistLookup j (setReadFlag cs k b) =
      if j = k then (alistLookup j cs).map (fun c => { c with read := b })
      else alistLookup j cs := by
  induction cs with
  | nil => by_cases h : j = k <;> simp [setReadFlag, alistLookup, h]
  | cons q rest ih =>
    simp only [setReadFlag, List.map_cons] at ih ⊢
    by_cases h1 : q.1 = k
    · subst h1
      by_cases h2 : j = q.1
      · subst h2
        simp [alistLookup]
      · have h3 : ¬ q.1 = j := fun hh => h2 hh.symm
        simp [alistLookup, h2, h3, ih]
    · by_cases h2 : q.1 = j
      · subst h2
        simp [alistLookup, h1]
      · simp [alistLookup, h1, h2, ih]

theorem copyReadFlags_cons (f : Chapters) (p : String × ChapterData) (rest : List (String × ChapterData)) :
    copyReadFlags f (p :: rest) = copyReadFlags (copyReadStep f p) rest := rfl

theorem copyReadStep_lookup_ne (f : Chapters) (p : String × ChapterData) (k : String)
    (h : p.1 ≠ k) : alistLookup k (copyReadStep f p) = alistLookup k f := by
  unfold copyReadStep
  split
  · rw [alistLookup_setReadFlag, if_neg (fun hh => h hh.symm)]
  · rfl

theorem copyReadStep_isSome (f : Chapters) (p : String × ChapterData) (k : String) :
    (alistLookup k (copyReadStep f p)).isSome = (alistLookup k f).isSome := by
  unfold copyReadStep
  split
  · rw [alistLookup_setReadFlag]
    by_cases h : k = p.1 <;> simp [h]
  · rfl

theorem copyReadFlags_isSome (snap f : Chapters) (k : String) :
    (alistLookup k (copyReadFlags f snap)).isSome = (alistLookup k f).isSome := by
  induction snap generalizing f with
  | nil => rfl
  | cons p rest ih => rw [copyReadFlags_cons, ih, copyReadStep_isSome]

theorem copyReadFlags_lookup_not_mem (snap f : Chapters) (k : String)
    (h : ∀ p ∈ snap, p.1 ≠ k) :
    alistLookup k (copyReadFlags f snap) = alistLookup k f := by
  induction snap generalizing f with
  | nil => rfl
  | cons p rest ih =>
    rw [copyReadFlags_cons, ih _ (fun q hq => h q (List.mem_cons_of_mem _ hq)),
      copyReadStep_lookup_ne _ _ _ (h p (List.mem_cons_self _ _))]

theorem copyReadFlags_lookup (snap f : Chapters) (k : String)
    (hnd : (snap.map Prod.fst).Nodup) :
    alistLookup k (copyReadFlags f snap) =
      match alistLookup k snap, alistLookup k f with
      | some s, some c => some { c with read := s.read }
      | some _, none => none
      | none, _ => alistLookup k f := by
  induction snap generalizing f with
  | nil => simp [copyReadFlags, alistLookup]
  | cons p rest ih =>
    rw [copyReadFlags_cons]
    simp only [List.map_cons, List.nodup_cons] at hnd
    by_cases hp : p.1 = k
    · have hrest : ∀ q ∈ rest, q.1 ≠ k := by
        intro q hq hqk
        apply hnd.1
        have hm : q.1 ∈ rest.map Prod.fst := List.mem_map_of_mem Prod.fst hq
        rw [hqk, ← hp] at hm
        exact hm
      rw [copyReadFlags_lookup_not_mem _ _ _ hrest]
      simp only [alistLookup, if_pos hp]
      unfold copyReadStep
      rcases hf : alistLookup p.1 f with _ | c
      · have hkf : alistLookup k f = none := by rw [← hp]; exact hf
        simp [hf, hkf]
      · have hkf : alistLookup k f = some c := by rw [← hp]; exact hf
        simp only [hf, Option.isSome_some, if_pos]
        rw [alistLookup_setReadFlag, if_pos hp.symm, hkf]
        rfl
    · simp only [alistLookup, if_neg hp]
      rw [ih _ hnd.2, copyReadStep_lookup_ne _ _ _ hp]

/-! ### Well-formedness: each chapter record's stored `id` is its dict key -/

theorem idMatch_alistInsert {cs : Chapters} {k : String} {v : ChapterData}
    (h : IdMatch cs) (hv : v.id = k) : IdMatch (alistInsert cs k v) := by
  induction cs with
  | nil =>
    intro p hp
    simp only [alistInsert, List.mem_singleton] at hp
    subst hp
    exact hv
  | cons q rest ih =>
    intro p hp
    by_cases hq : q.1 = k
    · simp only [alistInsert, if_pos hq] at hp
      rcases List.mem_cons.mp hp with rfl | hmem
      · exact hv
      · exact h p (List.mem_cons_of_mem _ hmem)
    · simp only [alistInsert, if_neg hq] at hp
      rcases List.mem_cons.mp hp with rfl | hmem
      · exact h p (List.mem_cons_self _ _)
      · exact ih (fun q2 hq2 => h q2 (List.mem_cons_of_mem _ hq2)) p hmem

theorem idMatch_update_chapter_data {cs : Chapters} {c : ChapterData}
    (h : IdMatch cs) : IdMatch (update_chapter_data cs c) := by
  unfold update_chapter_data
  rcases alistLookup c.id cs with _ | old
  · exact idMatch_alistInsert h rfl
  · exact idMatch_alistInsert h rfl

theorem idMatch_foldl_update {L : List ChapterData} {cs : Chapters}
    (h : IdMatch cs) : IdMatch (L.foldl update_chapter_data cs) := by
  induction L generalizing cs with
  | nil => exact h
  | cons c rest ih => exact ih (idMatch_update_chapter_data h)

theorem idMatch_setReadFlag {cs : Chapters} (k : String) (b : Bool)
    (h : IdMatch cs) : IdMatch (setReadFlag cs k b) := by
  intro p hp
  simp only [setReadFlag, List.mem_map] at hp
  obtain ⟨q, hq, hqp⟩ := hp
  by_cases hk : q.1 = k
  · rw [if_pos hk] at hqp
    subst hqp
    exact hk ▸ (h q hq)
  · rw [if_neg hk] at hqp
    subst hqp
    exact h q hq

theorem idMatch_copyReadFlags {snap f : Chapters} (h : IdMatch f) :
    IdMatch (copyReadFlags f snap) := by
  induction snap generalizing f with
  | nil => exact h
  | cons p rest ih =>
    rw [copyReadFlags_cons]
    apply ih
    unfold copyReadStep
    split
    · exact idMatch_setReadFlag _ _ h
    · exact h

theorem idMatch_work {media : MediaData} (rep : Bool) (h : IdMatch media.chapters) :
    IdMatch (work_chapters rep media) := by
  unfold work_chapters
  split
  · intro p hp
    simp at hp
  · exact h

theorem mem_get_chapter_ids {fo : Bool} {cs : Chapters} {k : String}
    (h : k ∈ get_chapter_ids fo cs) : ∃ p ∈ cs, p.1 = k := by
  unfold get_chapter_ids at h
  split at h
  · obtain ⟨p, hp, hpk⟩ := List.mem_map.mp h
    exact ⟨p, List.mem_of_mem_filter hp, hpk⟩
  · obtain ⟨p, hp, hpk⟩ := List.mem_map.mp h
    exact ⟨p, hp, hpk⟩

theorem filterMap_lookup_map_id (ids : List String) (final : Chapters)
    (hall : ∀ k ∈ ids, (alistLookup k final).isSome)
    (hid : IdMatch final) :
    (ids.filterMap (fun i => alistLookup i final)).map (fun c => c.id) = ids := by
  induction ids with
  | nil => rfl
  | cons k rest ih =>
    obtain ⟨c, hc⟩ := Option.isSome_iff_exists.mp (hall k (List.mem_cons_self _ _))
    have hck : c.id = k := hid (k, c) (alistLookup_mem hc)
    simp only [List.filterMap_cons, hc, List.map_cons, hck]
    rw [ih (fun i hi => hall i (List.mem_cons_of_mem _ hi))]

theorem length_filterMap_lookup (ids : List String) (final : Chapters)
    (hall : ∀ k ∈ ids, (alistLookup k final).isSome) :
    (ids.filterMap (fun i => alistLookup i final)).length = ids.length := by
  induction ids with
  | nil => rfl
  | cons k rest ih =>
    obtain ⟨c, hc⟩ := Option.isSome_iff_exists.mp (hall k (List.mem_cons_self _ _))
    simp only [List.filterMap_cons, hc, List.length_cons]
    rw [ih (fun i hi => hall i (List.mem_cons_of_mem _ hi))]

/-! ### Sorting lemmas -/

theorem insertSorted_perm (c : ChapterData) (l : List ChapterData) :
    List.Perm (insertSorted c l) (c :: l) := by
  induction l with
  | nil => exact List.Perm.refl _
  | cons d rest ih =>
    unfold insertSorted
    split
    · exact List.Perm.refl _
    · exact (List.Perm.cons d ih).trans (List.Perm.swap c d rest)

theorem sortByNumber_perm (l : List ChapterData) : List.Perm (sortByNumber l) l := by
  induction l with
  | nil => exact List.Perm.refl _
  | cons c rest ih =>
    exact (insertSorted_perm c (sortByNumber rest)).trans (List.Perm.cons c ih)

theorem sorted_insertSorted {c : ChapterData} {l : List ChapterData}
    (h : List.Sorted (fun a b : ChapterData => a.number ≤ b.number) l) :
    List.Sorted (fun a b : ChapterData => a.number ≤ b.number) (insertSorted c l) := by
  induction l with
  | nil => simp [insertSorted, List.Sorted]
  | cons d rest ih =>
    rw [List.sorted_cons] at h
    unfold insertSorted
    split
    · rename_i hcd
      rw [List.sorted_cons]
      constructor
      · intro b hb
        rcases List.mem_cons.mp hb with rfl | hmem
        · exact hcd
        · exact le_trans hcd (h.1 b hmem)
      · rw [List.sorted_cons]
        exact h
    · rename_i hcd
      rw [List.sorted_cons]
      constructor
      · intro b hb
        have hb2 := (insertSorted_perm c rest).mem_iff.mp hb
        rcases List.mem_cons.mp hb2 with rfl | hmem
        · exact le_of_lt (lt_of_not_le hcd)
        · exact h.1 b hmem
      · exact ih h.2

theorem sorted_sortByNumber (l : List ChapterData) :
    List.Sorted (fun a b : ChapterData => a.number ≤ b.number) (sortByNumber l) := by
  induction l with
  | nil => simp [sortByNumber, List.Sorted]
  | cons c rest ih => exact sorted_insertSorted ih

/-! ### Fold-max lemmas (for the last-number / last-read queries) -/

theorem le_foldl_max (xs : List ℚ) : ∀ a x : ℚ, x = a ∨ x ∈ xs → x ≤ xs.foldl max a := by
  induction xs with
  | nil =>
    intro a x h
    rcases h with rfl | h
    · exact le_refl _
    · simp at h
  | cons y ys ih =>
    intro a x h
    rw [List.foldl_cons]
    have hbase : max a y ≤ ys.foldl max (max a y) := ih (max a y) (max a y) (Or.inl rfl)
    rcases h with rfl | h
    · exact le_trans (le_max_left _ _) hbase
    · rcases List.mem_cons.mp h with rfl | hmem
      · exact le_trans (le_max_right _ _) hbase
      · exact ih (max a y) x (Or.inr hmem)

theorem foldl_max_mem (xs : List ℚ) (a : ℚ) :
    xs.foldl max a = a ∨ xs.foldl max a ∈ xs := by
  induction xs generalizing a with
  | nil => exact Or.inl rfl
  | cons y ys ih =>
    rw [List.foldl_cons]
    rcases ih (max a y) with h | h
    · rcases max_choice a y with h2 | h2
      · exact Or.inl (h.trans h2)
      · right
        rw [h, h2]
        exact List.mem_cons_self _ _
    · exact Or.inr (List.mem_cons_of_mem _ h)

theorem maxOrZero_mem {l : List ℚ} (h : l ≠ []) : maxOrZero l ∈ l := by
  cases l with
  | nil => exact absurd rfl h
  | cons x xs =>
    rcases foldl_max_mem xs x with h2 | h2
    · rw [maxOrZero, h2]
      exact List.mem_cons_self _ _
    · rw [maxOrZero]
      exact List.mem_cons_of_mem _ h2

theorem le_maxOrZero {l : List ℚ} {q : ℚ} (h : q ∈ l) : q ≤ maxOrZero l := by
  cases l with
  | nil => simp at h
  | cons x xs =>
    rw [maxOrZero]
    rcases List.mem_cons.mp h with h2 | hmem
    · rw [h2]
      exact le_foldl_max xs _ _ (Or.inl rfl)
    · exact le_foldl_max xs _ _ (Or.inr hmem)

/-- The state part of `update_media` is always the input item with only its
`chapters` field rewritten. -/
theorem update_media_fst_shape (fo sr : Bool) (f : Except PyErr (List ChapterData))
    (media : MediaData) (rep : Bool) :
    (update_media fo sr f media rep).1 =
      { media with chapters := (update_media fo sr f media rep).1.chapters } := by
  cases f with
  | error e => cases sr <;> cases rep <;> rfl
  | ok L => rfl

/-! ### Claim theorems -/

/-- C9: for every item, `get_last_chapter_number` returns the maximum chapter
number, or `0` when the item has no chapters, and `get_last_read` returns the
maximum `number` among chapters with `read = true`, or `0` when no chapter is
read; both are total functions of the chapter mapping (nothing is raised on
an empty mapping — the `default`/`if` fallbacks of state.py:178-182 apply). -/
theorem get_last_queries_max_or_zero (m : MediaData) :
    (m.chapters = [] → m.get_last_chapter_number = 0) ∧
    (m.chapters ≠ [] →
      m.get_last_chapter_number ∈ m.chapters.map (fun p => p.2.number) ∧
      ∀ q ∈ m.chapters.map (fun p => p.2.number), q ≤ m.get_last_chapter_number) ∧
    (m.chapters.filter (fun p => p.2.read) = [] → m.get_last_read = 0) ∧
    (m.chapters.filter (fun p => p.2.read) ≠ [] →
      m.get_last_read ∈ (m.chapters.filter (fun p => p.2.read)).map (fun p => p.2.number) ∧
      ∀ q ∈ (m.chapters.filter (fun p => p.2.read)).map (fun p => p.2.number),
        q ≤ m.get_last_read) := by
  refine ⟨?_, ?_, ?_, ?_⟩
  · intro h
    rw [MediaData.get_last_chapter_number, h]
    rfl
  · intro h
    constructor
    · exact maxOrZero_mem (by simpa using h)
    · intro q hq
      exact le_maxOrZero hq
  · intro h
    rw [MediaData.get_last_read, h]
    rfl
  · intro h
    constructor
    · exact maxOrZero_mem (by simpa using h)
    · intro q hq
      exact le_maxOrZero hq

/-- C9 witness: the queries evaluated on the concrete two-chapter item
`mW1` (both chapters read, numbered 1 and 2). -/
theorem get_last_queries_max_or_zero_witness :
    mW1.chapters ≠ [] ∧
    mW1.get_last_chapter_number ∈ mW1.chapters.map (fun p => p.2.number) ∧
    (∀ q ∈ mW1.chapters.map (fun p => p.2.number), q ≤ mW1.get_last_chapter_number) ∧
    mW1.get_last_read ∈ (mW1.chapters.filter (fun p => p.2.read)).map (fun p => p.2.number) :=
  ⟨by decide, ((get_last_queries_max_or_zero mW1).2.1 (by decide)).1,
   ((get_last_queries_max_or_zero mW1).2.1 (by decide)).2,
   (((get_last_queries_max_or_zero mW1).2.2.2) (by decide)).1⟩

theorem save_to_file_seeds {α : Type} (hashF : String → Int) (ser : α → String)
    (st : PState) (f : String) (p : α) :
    (alistLookup f ((save_to_file hashF ser st f p).1).hashes).getD 0 = hashF (ser p) := by
  unfold save_to_file
  split
  · assumption
  · rw [alistLookup_insert_self]
    rfl

theorem save_to_file_hashes_other {α : Type} (hashF : String → Int) (ser : α → String)
    (st : PState) (f : String) (p : α) (k : String) (h : k ≠ f) :
    alistLookup k ((save_to_file hashF ser st f p).1).hashes = alistLookup k st.hashes := by
  unfold save_to_file
  split
  · rfl
  · exact alistLookup_insert_ne _ _ _ _ h

theorem save_all_hashes_other {α : Type} (hashF : String → Int) (ser : α → String)
    (files : List (String × α)) : ∀ (st : PState) (k : String),
    k ∉ files.map Prod.fst →
    alistLookup k ((save_all hashF ser st files).1).hashes = alistLookup k st.hashes := by
  induction files with
  | nil => intro st k _; rfl
  | cons fp rest ih =>
    intro st k hk
    simp only [List.map_cons, List.mem_cons, not_or] at hk
    rw [save_all]
    rw [ih _ _ hk.2, save_to_file_hashes_other _ _ _ _ _ _ hk.1]

theorem seeded_after_save_all {α : Type} (hashF : String → Int) (ser : α → String)
    (files : List (String × α)) : ∀ st : PState, (files.map Prod.fst).Nodup →
    Seeded hashF ser (save_all hashF ser st files).1 files := by
  induction files with
  | nil => intro st _ fp hfp; simp at hfp
  | cons fp rest ih =>
    intro st hnd q hq
    simp only [List.map_cons, List.nodup_cons] at hnd
    rw [save_all]
    rcases List.mem_cons.mp hq with rfl | hmem
    · rw [save_all_hashes_other hashF ser rest _ _ (by simpa using hnd.1)]
      exact save_to_file_seeds hashF ser st q.1 q.2
    · exact ih _ hnd.2 q hmem

theorem save_all_of_seeded {α : Type} (hashF : String → Int) (ser : α → String)
    (files : List (String × α)) : ∀ st : PState, Seeded hashF ser st files →
    save_all hashF ser st files = (st, 0) := by
  induction files with
  | nil => intro st _; rfl
  | cons fp rest ih =>
    intro st hs
    have hskip : save_to_file hashF ser st fp.1 fp.2 = (st, false) := by
      unfold save_to_file
      rw [if_pos (hs fp (List.mem_cons_self _ _))]
    rw [save_all, hskip]
    rw [ih st (fun q hq => hs q (List.mem_cons_of_mem _ hq))]
    simp

theorem read_file_seeds {α : Type} (hashF : String → Int) (ser : α → String)
    (st : PState) (f : String) (p : α) :
    alistLookup f ((read_file_as_dict hashF ser st f (some p)).1).hashes =
      some (hashF (ser p)) := by
  unfold read_file_as_dict
  exact alistLookup_insert_self _ _ _

theorem load_all_hashes_other {α : Type} (hashF : String → Int) (ser : α → String)
    (files : List (String × α)) : ∀ (st : PState) (k : String),
    k ∉ files.map Prod.fst →
    alistLookup k (load_all hashF ser st files).hashes = alistLookup k st.hashes := by
  induction files with
  | nil => intro st k _; rfl
  | cons fp rest ih =>
    intro st k hk
    simp only [List.map_cons, List.mem_cons, not_or] at hk
    rw [load_all, ih _ _ hk.2]
    unfold read_file_as_dict
    exact alistLookup_insert_ne _ _ _ _ hk.1

theorem seeded_after_load_all {α : Type} (hashF : String → Int) (ser : α → String)
    (files : List (String × α)) : ∀ st : PState, (files.map Prod.fst).Nodup →
    Seeded hashF ser (load_all hashF ser st files) files := by
  induction files with
  | nil => intro st _ fp hfp; simp at hfp
  | cons fp rest ih =>
    intro st hnd q hq
    simp only [List.map_cons, List.nodup_cons] at hnd
    rw [load_all]
    rcases List.mem_cons.mp hq with rfl | hmem
    · rw [load_all_hashes_other hashF ser rest _ _ (by simpa using hnd.1),
        read_file_seeds]
      rfl
    · exact ih _ hnd.2 q hmem

/-- C4: `save_to_file` writes a destination exactly when the payload's
canonical-serialization hash differs from the recorded hash for that
destination, `read_file_as_dict` seeds that hash on load, and consequently a
second `save` with no mutation in between performs zero writes, as does a
`save` immediately after a `load` of the same payloads (destination file
names being distinct, as the distinct metadata/bundle/per-item paths of
settings are). -/
theorem persistence_change_only_writes (α : Type) (hashF : String → Int) (ser : α → String)
    (st : PState) (f : String) (p : α) (st0 : PState) (files : List (String × α))
    (hnd : (files.map Prod.fst).Nodup) :
    ((save_to_file hashF ser st f p).2 = true ↔
      (alistLookup f st.hashes).getD 0 ≠ hashF (ser p)) ∧
    alistLookup f ((read_file_as_dict hashF ser st f (some p)).1).hashes
      = some (hashF (ser p)) ∧
    (save_all hashF ser (save_all hashF ser st0 files).1 files).2 = 0 ∧
    (save_all hashF ser (load_all hashF ser st0 files) files).2 = 0 := by
  refine ⟨?_, read_file_seeds hashF ser st f p, ?_, ?_⟩
  · unfold save_to_file
    split
    · rename_i hcond
      simp [hcond]
    · rename_i hcond
      simp [hcond]
  · rw [save_all_of_seeded hashF ser files _ (seeded_after_save_all hashF ser files st0 hnd)]
  · rw [save_all_of_seeded hashF ser files _ (seeded_after_load_all hashF ser files st0 hnd)]

/-- C4 witness: the statement instantiated at two concrete string payloads
(hash = string length), with distinct destination names. -/
theorem persistence_change_only_writes_witness :
    ((save_to_file (fun s => (s.length : Int)) (fun s : String => s)
        ⟨[]⟩ "meta" "x").2 = true ↔
      (alistLookup "meta" (PState.mk []).hashes).getD 0 ≠
        ((fun s : String => (s.length : Int)) ((fun s : String => s) "x"))) ∧
    alistLookup "meta" ((read_file_as_dict (fun s => (s.length : Int))
        (fun s : String => s) ⟨[]⟩ "meta" (some "x")).1).hashes
      = some ((fun s : String => (s.length : Int)) ((fun s : String => s) "x")) ∧
    (save_all (fun s => (s.length : Int)) (fun s : String => s)
      (save_all (fun s => (s.length : Int)) (fun s : String => s) ⟨[]⟩
        [("meta", "x"), ("bundles", "yz")]).1 [("meta", "x"), ("bundles", "yz")]).2 = 0 ∧
    (save_all (fun s => (s.length : Int)) (fun s : String => s)
      (load_all (fun s => (s.length : Int)) (fun s : String => s) ⟨[]⟩
        [("meta", "x"), ("bundles", "yz")]) [("meta", "x"), ("bundles", "yz")]).2 = 0 :=
  persistence_change_only_writes String (fun s => (s.length : Int)) (fun s : String => s)
    ⟨[]⟩ "meta" "x" ⟨[]⟩ [("meta", "x"), ("bundles", "yz")] (by decide)

/-- C2 evaluated at a replace-mode update of the two-chapter item `mW1`
whose fetch raises: the error is re-raised, but the item comes back with an
empty chapter mapping — the restore at media_reader.py:272 assigns through
`dict.__setitem__` into raw storage shadowed by `MediaData.__getitem__`
(state.py:160-164, no `__setitem__` override), so the pre-clear snapshot is
never made visible again and the sub-items are left empty by the transient
failure. -/
theorem update_media_replace_fetch_error_eval :
    update_media false false (.error .fetchError) mW1 true =
      ({ mW1 with chapters := [] }, .error .fetchError) ∧
    mW1.chapters ≠ [] := by
  exact ⟨rfl, by decide⟩

/-- C1: in a replace-mode reconciliation with a successful fetch, every id
present in both the pre-clear snapshot and the fetched data keeps its
snapshot `read` flag while every other field (title, number, ...) comes from
the freshly fetched record; an id present only in the fresh data ends with
exactly its fetched record (the provider-given `read` value); a snapshot id
absent from the fresh data is dropped. -/
theorem update_media_replace_reconciliation (fo sr : Bool) (L : List ChapterData)
    (media : MediaData) (hnd : (media.chapters.map Prod.fst).Nodup) :
    (∀ k cOld cNew, alistLookup k media.chapters = some cOld →
      alistLookup k (update_media fo sr (.ok L) media true).1.chapters = some cNew →
      ∃ cF, alistLookup k (fetched_chapters true media L) = some cF ∧
        cNew = { cF with read := cOld.read }) ∧
    (∀ k, alistLookup k media.chapters = none →
      alistLookup k (update_media fo sr (.ok L) media true).1.chapters =
        alistLookup k (fetched_chapters true media L)) ∧
    (∀ k, alistLookup k (fetched_chapters true media L) = none →
      alistLookup k (update_media fo sr (.ok L) media true).1.chapters = none) := by
  have hch : (update_media fo sr (.ok L) media true).1.chapters =
      copyReadFlags (fetched_chapters true media L) media.chapters := by
    show final_chapters (sr || true) media L = _
    rw [Bool.or_true]
    rfl
  rw [hch]
  refine ⟨?_, ?_, ?_⟩
  · intro k cOld cNew hOld hNew
    rw [copyReadFlags_lookup media.chapters (fetched_chapters true media L) k hnd, hOld]
      at hNew
    rcases hF : alistLookup k (fetched_chapters true media L) with _ | cF
    · rw [hF] at hNew
      exact absurd hNew (by simp)
    · rw [hF] at hNew
      have h2 : some { cF with read := cOld.read } = some cNew := hNew
      injection h2 with h3
      exact ⟨cF, rfl, h3.symm⟩
  · intro k h
    rw [copyReadFlags_lookup media.chapters (fetched_chapters true media L) k hnd, h]
  · intro k h
    rw [copyReadFlags_lookup media.chapters (fetched_chapters true media L) k hnd, h]
    rcases halo : alistLookup k media.chapters with _ | c <;> rfl

/-- C1 witness: the replace-mode reconciliation of the concrete item `mW1`
(chapters c1, c2 read) against the listing `LW1` (c1 refreshed, c3 new):
c1 keeps `read = true` with the fresh title, c3 appears as fetched, c2 is
dropped. -/
theorem update_media_replace_reconciliation_witness :
    (∃ cF, alistLookup "c1" (fetched_chapters true mW1 LW1) = some cF ∧
      (⟨"c1", 1, "t1", true, false, false⟩ : ChapterData) = { cF with read := cW1.read }) ∧
    alistLookup "c3" (update_media false false (.ok LW1) mW1 true).1.chapters =
      alistLookup "c3" (fetched_chapters true mW1 LW1) ∧
    alistLookup "c2" (update_media false false (.ok LW1) mW1 true).1.chapters = none := by
  have h := update_media_replace_reconciliation false false LW1 mW1 (by decide)
  exact ⟨h.1 "c1" cW1 ⟨"c1", 1, "t1", true, false, false⟩ (by decide) (by decide),
    h.2.1 "c3" (by decide), h.2.2 "c2" (by decide)⟩

/-- C5: a reconciliation whose fetch succeeds returns exactly the chapters
whose ids are in the post-fetch id set minus the pre-fetch id set (both sides
under the same `free_only` paywall filter), sorted ascending by `number`; the
asserted equality `len(new_chapter_ids) == len(new_chapters)` holds on every
such call (the `assertionError` branch is unreachable), and every returned
chapter is the final mapping's record at its id. -/
theorem update_media_new_chapter_result (fo sr rep : Bool) (L : List ChapterData)
    (media : MediaData) (hids : IdMatch media.chapters) :
    (update_media fo sr (.ok L) media rep).2 =
      .ok (new_chapters_result fo (sr || rep) media L) ∧
    List.Sorted (fun a b : ChapterData => a.number ≤ b.number)
      (new_chapters_result fo (sr || rep) media L) ∧
    List.Perm ((new_chapters_result fo (sr || rep) media L).map (fun c => c.id))
      (new_chapter_ids fo (sr || rep) media L) ∧
    (new_chapters_result fo (sr || rep) media L).length =
      (new_chapter_ids fo (sr || rep) media L).length ∧
    ∀ c ∈ new_chapters_result fo (sr || rep) media L,
      alistLookup c.id (update_media fo sr (.ok L) media rep).1.chapters = some c := by
  have hidf : IdMatch (fetched_chapters (sr || rep) media L) :=
    idMatch_foldl_update (idMatch_work _ hids)
  have hidfin : IdMatch (final_chapters (sr || rep) media L) := by
    unfold final_chapters
    split
    · exact idMatch_copyReadFlags hidf
    · exact hidf
  have hall : ∀ k ∈ new_chapter_ids fo (sr || rep) media L,
      (alistLookup k (final_chapters (sr || rep) media L)).isSome := by
    intro k hk
    have hk2 : k ∈ get_chapter_ids fo (fetched_chapters (sr || rep) media L) :=
      List.mem_of_mem_filter hk
    have hsome : (alistLookup k (fetched_chapters (sr || rep) media L)).isSome :=
      alistLookup_isSome_of_mem (mem_get_chapter_ids hk2)
    unfold final_chapters
    split
    · rw [copyReadFlags_isSome]
      exact hsome
    · exact hsome
  have hprelim : (((new_chapter_ids fo (sr || rep) media L).filterMap
      (fun i => alistLookup i (final_chapters (sr || rep) media L))).map (fun c => c.id)) =
      new_chapter_ids fo (sr || rep) media L :=
    filterMap_lookup_map_id _ _ hall hidfin
  have hlen : (new_chapters_result fo (sr || rep) media L).length =
      (new_chapter_ids fo (sr || rep) media L).length := by
    unfold new_chapters_result
    rw [(sortByNumber_perm _).length_eq, length_filterMap_lookup _ _ hall]
  refine ⟨?_, sorted_sortByNumber _, ?_, hlen, ?_⟩
  · show (if (new_chapter_ids fo (sr || rep) media L).length =
        (new_chapters_result fo (sr || rep) media L).length
      then Except.ok (new_chapters_result fo (sr || rep) media L)
      else Except.error PyErr.assertionError) = _
    rw [if_pos hlen.symm]
  · have hp := ((sortByNumber_perm ((new_chapter_ids fo (sr || rep) media L).filterMap
      (fun i => alistLookup i (final_chapters (sr || rep) media L)))).map (fun c => c.id))
    rw [hprelim] at hp
    exact hp
  · intro c hc
    unfold new_chapters_result at hc
    have hc2 := (sortByNumber_perm _).mem_iff.mp hc
    obtain ⟨k, hk, hlk⟩ := List.mem_filterMap.mp hc2
    have hcid : c.id = k := hidfin (k, c) (alistLookup_mem hlk)
    show alistLookup c.id (final_chapters (sr || rep) media L) = some c
    rw [hcid]
    exact hlk

/-- C5 witness: the concrete additive reconciliation of `mW1` against `LW1`
(new id c3 only) returns the asserted-consistent result. -/
theorem update_media_new_chapter_result_witness :
    IdMatch mW1.chapters ∧
    (update_media false false (.ok LW1) mW1 false).2 =
      .ok (new_chapters_result false false mW1 LW1) ∧
    (new_chapters_result false false mW1 LW1).length =
      (new_chapter_ids false false mW1 LW1).length := by
  have hid : IdMatch mW1.chapters := by
    unfold IdMatch
    decide
  have h := update_media_new_chapter_result false false false LW1 mW1 hid
  exact ⟨hid, h.1, h.2.2.2.1⟩

/-- C10: `add_media` on an item whose `global_id` is already a catalog key
raises `ValueError` leaving the catalog untouched; on a fresh `global_id` it
stores the item (its chapters possibly refreshed by the follow-up update)
under exactly that key, all other keys unchanged. -/
theorem add_media_duplicate_check (env : MigrateEnv) (cat : MediaMap) (m : MediaData)
    (nu : Bool) :
    ((alistLookup m.global_id cat).isSome →
      add_media env cat m nu = .error (cat, .valueError)) ∧
    (alistLookup m.global_id cat = none →
      ∃ cat2 m2,
        ((∃ cs, add_media env cat m nu = .ok (cat2, cs)) ∨
          ∃ e, add_media env cat m nu = .error (cat2, e)) ∧
        alistLookup m.global_id cat2 = some m2 ∧
        m2 = { m with chapters := m2.chapters } ∧
        ∀ k, k ≠ m.global_id → alistLookup k cat2 = alistLookup k cat) := by
  constructor
  · intro h
    unfold add_media
    rw [if_pos h]
  · intro h
    unfold add_media
    rw [if_neg (by simp [h])]
    cases nu with
    | true =>
      refine ⟨alistInsert cat m.global_id m, m, Or.inl ⟨[], rfl⟩, ?_, ?_, ?_⟩
      · exact alistLookup_insert_self _ _ _
      · rfl
      · intro k hk
        exact alistLookup_insert_ne _ _ _ _ hk
    | false =>
      rcases hu : (update_media env.free_only (env.sync_removed m.server_id)
          (env.fetch m.global_id) m false).2 with e | cs
      · refine ⟨alistInsert (alistInsert cat m.global_id m) m.global_id
          (update_media env.free_only (env.sync_removed m.server_id)
            (env.fetch m.global_id) m false).1,
          (update_media env.free_only (env.sync_removed m.server_id)
            (env.fetch m.global_id) m false).1, Or.inr ⟨e, ?_⟩, ?_, ?_, ?_⟩
        · simp [hu]
        · exact alistLookup_insert_self _ _ _
        · exact update_media_fst_shape _ _ _ _ _
        · intro k hk
          rw [alistLookup_insert_ne _ _ _ _ hk, alistLookup_insert_ne _ _ _ _ hk]
      · refine ⟨alistInsert (alistInsert cat m.global_id m) m.global_id
          (update_media env.free_only (env.sync_removed m.server_id)
            (env.fetch m.global_id) m false).1,
          (update_media env.free_only (env.sync_removed m.server_id)
            (env.fetch m.global_id) m false).1, Or.inl ⟨cs, ?_⟩, ?_, ?_, ?_⟩
        · simp [hu]
        · exact alistLookup_insert_self _ _ _
        · exact update_media_fst_shape _ _ _ _ _
        · intro k hk
          rw [alistLookup_insert_ne _ _ _ _ hk, alistLookup_insert_ne _ _ _ _ hk]

/-- C10 witness: the duplicate check evaluated on a catalog already holding
s1:a (ValueError, catalog untouched) and the insertion path on an empty
catalog. -/
theorem add_media_duplicate_check_witness :
    add_media envC7 [("s1:a", oldA)] oldA true = .error ([("s1:a", oldA)], .valueError) ∧
    (∃ cat2 m2,
      ((∃ cs, add_media envC7 [] oldA true = .ok (cat2, cs)) ∨
        ∃ e, add_media envC7 [] oldA true = .error (cat2, e)) ∧
      alistLookup oldA.global_id cat2 = some m2 ∧
      m2 = { oldA with chapters := m2.chapters } ∧
      ∀ k, k ≠ oldA.global_id → alistLookup k cat2 = alistLookup k ([] : MediaMap)) :=
  ⟨(add_media_duplicate_check envC7 [("s1:a", oldA)] oldA true).1 (by decide),
   (add_media_duplicate_check envC7 [] oldA true).2 (by decide)⟩

/-- The per-item loop of `migrate` pairs every selected item with a new item
carrying exactly its user-owned fields (`copy_fields_to`). -/
theorem migrate_loop_copies_fields (env : MigrateEnv) (cat : MediaMap)
    (sel : List MediaData) (catF : MediaMap) (ms : List MediaData) (lrs : List ℚ)
    (h : migrate_loop env cat sel = .ok (catF, ms, lrs)) :
    List.Forall₂ (fun old nw => nw.offset = old.offset ∧ nw.progress = old.progress ∧
      nw.progressVolumes = old.progressVolumes ∧ nw.trackers = old.trackers) sel ms := by
  induction sel generalizing cat catF ms lrs with
  | nil =>
    simp only [migrate_loop, Except.ok.injEq, Prod.mk.injEq] at h
    obtain ⟨h1, h2, h3⟩ := h
    subst h2
    exact List.Forall₂.nil
  | cons old rest ih =>
    simp only [migrate_loop] at h
    rcases hsa : search_add env (alistErase cat old.global_id) old with e | pr
    · simp [hsa] at h
    · obtain ⟨cat2, onm⟩ := pr
      simp only [hsa] at h
      rcases onm with _ | nm
      · simp [copy_fields_to] at h
      · simp only [copy_fields_to] at h
        rcases hrec : migrate_loop env (alistInsert cat2
            ({ nm with
              offset := old.offset, progress := old.progress,
              progressVolumes := old.progressVolumes,
              trackers := old.trackers } : MediaData).global_id
            { nm with
              offset := old.offset, progress := old.progress,
              progressVolumes := old.progressVolumes,
              trackers := old.trackers }) rest with e2 | tr
        · simp [hrec] at h
        · obtain ⟨catF2, ms2, lrs2⟩ := tr
          simp only [hrec, Except.ok.injEq, Prod.mk.injEq] at h
          obtain ⟨h1, h2, h3⟩ := h
          subst h2
          exact List.Forall₂.cons ⟨rfl, rfl, rfl, rfl⟩ (ih _ _ _ _ hrec)

/-- C6: user-owned fields survive every reconciliation and migration step:
`update_media` and `mark_chapters_until_n_as_read` leave `offset`,
`progress`, `progressVolumes` and `trackers` unchanged, and a migrate run
pairs each selected item with a replacement holding exactly that item's
user-owned field values (via `copy_fields_to`). -/
theorem user_fields_preserved (fo sr : Bool) (f : Except PyErr (List ChapterData))
    (media : MediaData) (rep : Bool) (m2 : MediaData) (N : ℚ) (force : Bool)
    (env : MigrateEnv) (cat catF : MediaMap) (sel ms : List MediaData) (lrs : List ℚ)
    (h : migrate_loop env cat sel = .ok (catF, ms, lrs)) :
    ((update_media fo sr f media rep).1.offset = media.offset ∧
      (update_media fo sr f media rep).1.progress = media.progress ∧
      (update_media fo sr f media rep).1.progressVolumes = media.progressVolumes ∧
      (update_media fo sr f media rep).1.trackers = media.trackers) ∧
    ((mark_chapters_until_n_as_read m2 N force).offset = m2.offset ∧
      (mark_chapters_until_n_as_read m2 N force).progress = m2.progress ∧
      (mark_chapters_until_n_as_read m2 N force).progressVolumes = m2.progressVolumes ∧
      (mark_chapters_until_n_as_read m2 N force).trackers = m2.trackers) ∧
    List.Forall₂ (fun old nw => nw.offset = old.offset ∧ nw.progress = old.progress ∧
      nw.progressVolumes = old.progressVolumes ∧ nw.trackers = old.trackers) sel ms := by
  refine ⟨?_, ⟨rfl, rfl, rfl, rfl⟩, migrate_loop_copies_fields env cat sel catF ms lrs h⟩
  cases f <;> cases sr <;> cases rep <;> exact ⟨rfl, rfl, rfl, rfl⟩

/-- C6 witness: the preservation statement instantiated at the concrete item
`mW1`, listing `LW1` and an empty migrate selection. -/
theorem user_fields_preserved_witness :
    ((update_media false false (.ok LW1) mW1 true).1.offset = mW1.offset ∧
      (update_media false false (.ok LW1) mW1 true).1.progress = mW1.progress ∧
      (update_media false false (.ok LW1) mW1 true).1.progressVolumes = mW1.progressVolumes ∧
      (update_media false false (.ok LW1) mW1 true).1.trackers = mW1.trackers) ∧
    ((mark_chapters_until_n_as_read mW1 5 false).offset = mW1.offset ∧
      (mark_chapters_until_n_as_read mW1 5 false).progress = mW1.progress ∧
      (mark_chapters_until_n_as_read mW1 5 false).progressVolumes = mW1.progressVolumes ∧
      (mark_chapters_until_n_as_read mW1 5 false).trackers = mW1.trackers) ∧
    List.Forall₂ (fun old nw => nw.offset = old.offset ∧ nw.progress = old.progress ∧
      nw.progressVolumes = old.progressVolumes ∧ nw.trackers = old.trackers)
      ([] : List MediaData) ([] : List MediaData) :=
  user_fields_preserved false false (.ok LW1) mW1 true mW1 5 false envC7 [] [] [] [] [] rfl

theorem filterMap_guard {α β : Type} (c : α → Bool) (g : α → β) (l : List α) :
    l.filterMap (fun a => if c a then some (g a) else none) = (l.filter c).map g := by
  induction l with
  | nil => rfl
  | cons a rest ih =>
    by_cases h : c a <;> simp [List.filterMap_cons, List.filter_cons, h, ih]

/-- `sync_step` in spec form: the staged tuple and the optimistic local
update, both guarded by `staged_condition`. -/
theorem sync_step_eq (force : Bool) (primary : String) (m : MediaData) :
    sync_step force primary m =
      (if staged_condition force primary m
        then { m with progress := m.get_last_read } else m,
       if staged_condition force primary m
        then some (((alistLookup primary m.trackers).getD ("", "")).1, m.get_last_read,
          m.progressVolumes)
        else none) := by
  unfold sync_step staged_condition
  rcases h : alistLookup primary m.trackers with _ | ti
  · simp [h]
  · simp only [h, Option.isSome_some, Bool.true_and, Option.getD_some]
    split <;> rfl

/-- C8 (amended): `sync_progress` stages an update tuple (tracking id, new
progress, volume flag) for exactly those items with a primary-tracker link
whose stored `progress` is strictly below the integer truncation
(`int(...)`) of `get_last_read()` — or for every linked item when `force` —
and sets each staged item's local `progress` to its full `get_last_read()`
value in the returned state, which is computed before (and independently of)
the remote `tracker.update` call. -/
theorem sync_progress_stages_truncated (force : Bool) (primary : String)
    (ms : List MediaData) :
    (sync_progress force primary ms).2 =
      (ms.filter (staged_condition force primary)).map
        (fun m => (((alistLookup primary m.trackers).getD ("", "")).1, m.get_last_read,
          m.progressVolumes)) ∧
    (sync_progress force primary ms).1 =
      ms.map (fun m => if staged_condition force primary m
        then { m with progress := m.get_last_read } else m) := by
  constructor
  · show ms.filterMap (fun m => (sync_step force primary m).2) = _
    have hcong : ms.filterMap (fun m => (sync_step force primary m).2) =
        ms.filterMap (fun m => if staged_condition force primary m
          then some (((alistLookup primary m.trackers).getD ("", "")).1, m.get_last_read,
            m.progressVolumes)
          else none) :=
      List.filterMap_congr (fun m _ => by rw [sync_step_eq])
    rw [hcong]
    exact filterMap_guard _ _ _
  · show ms.map (fun m => (sync_step force primary m).1) = _
    induction ms with
    | nil => rfl
    | cons m rest ih =>
      rw [List.map_cons, List.map_cons, ih, sync_step_eq]

/-- C8 counterexample to the claim as stated: `mC8` has a tracker link and a
last-read number (11/2) strictly exceeding its stored progress (5), yet
`sync_progress` stages nothing and leaves the item unchanged — the code
compares against `int(get_last_read())`, which truncates 11/2 to 5. -/
theorem sync_progress_exceeds_claim_cex :
    mC8.progress < mC8.get_last_read ∧
    (alistLookup "t" mC8.trackers).isSome = true ∧
    (sync_progress false "t" [mC8]).2 = [] ∧
    (sync_progress false "t" [mC8]).1 = [mC8] := by decide

/-- C3 evaluated at the two-item migrate run: the first item's replacement
(stored at key s2:a2) keeps its chapter numbered 1 unread even though the old
item was read up to 5, while the second item's replacement (s2:b2) gets its
chapter numbered 5 marked read even though its own old read position was 3 —
the final loop of `migrate` (media_reader.py:238-239) marks `new_media_data`,
the last replacement, once per entry of `last_read_list`, instead of marking
each `media_data` of the zip. -/
theorem migrate_read_position_eval :
    ((migrate envC3 catC3 [oldA, oldB]).toOption.bind
        (fun r => alistLookup "s2:a2" r.1)).bind
      (fun m => alistLookup "n1" m.chapters) =
      some ⟨"n1", 1, "", false, false, false⟩ ∧
    ((migrate envC3 catC3 [oldA, oldB]).toOption.bind
        (fun r => alistLookup "s2:b2" r.1)).bind
      (fun m => alistLookup "n5" m.chapters) =
      some ⟨"n5", 5, "", true, false, false⟩ := by decide

/-- C7 evaluated at a one-item migrate run whose search yields no candidate:
the item has already been removed from the catalog (it is empty at raise
time), and `migrate` aborts with the `TypeError` raised by
`copy_fields_to(None)` instead of reporting the removal non-fatally. -/
theorem migrate_no_candidate_eval :
    migrate envC7 [("s1:a", oldA)] [oldA] = .error ([], .typeError) := by rfl

end Amt
